import Mathlib

/-
Verification of the GTC2 uncertain-number core (GTC/lib_real.py and
GTC/lib_complex.py) against its natural-language specification.

The embedding uses rational numbers for the floating-point data of the
program and an explicit registry state (Context) for the mutable data
that the Python code keeps on Leaf node objects (correlation maps,
ensemble sets, complex-pair tags).  Machine transcendental functions
(sqrt, atan2, general powers) are abstracted as function parameters
where a claim does not depend on their values.

The modules GTC/vector.py and GTC/nodes.py are not part of the given
sources; their definitions below are modelled from the specification
(sections 3 and 4.1) and are marked accordingly.
-/

namespace GTC

/-- Degrees of freedom as the Python code treats them: a float that is
either an ordinary finite value, the IEEE infinity, or NaN. -/
inductive Dof : Type
  | nan : Dof
  | inf : Dof
  | fin : ℚ → Dof
deriving DecidableEq, Repr

/-- Python comparison df < 1 on degrees of freedom: false for inf and
for NaN (IEEE comparison semantics), the numeric comparison otherwise. -/
def Dof.ltOne : Dof → Bool
  | .fin q => decide (q < 1)
  | _ => false

/-- Spec-side reading of the requirement df >= 1 (satisfied by inf). -/
def Dof.geOne : Dof → Prop
  | .nan => False
  | .inf => True
  | .fin q => 1 ≤ q

/-- Sensitivity vector: a sparse uid-ordered map from influence-node
uids to coefficients, as described in spec section 3. -/
abbrev SVec : Type := List (Nat × ℚ)

/-- Association-list lookup used for every dict-like structure of the
model (Python dict get). -/
def lookupL {α β : Type} [DecidableEq α] : List (α × β) → α → Option β
  | [], _ => none
  | (k, v) :: t, i => if k = i then some v else lookupL t i

/-- Coefficient of a key in a sensitivity vector, zero when absent
(Python Vector get with default 0.0). -/
def vecGet (v : SVec) (k : Nat) : ℚ := (lookupL v k).getD 0

/-- Association-list write used for Python dict item assignment:
replaces the value when the key is present, appends otherwise. -/
def setL : List (Nat × ℚ) → Nat → ℚ → List (Nat × ℚ)
  | [], k, r => [(k, r)]
  | (k0, v0) :: t, k, r =>
    if k0 = k then (k, r) :: t else (k0, v0) :: setL t k r

/-- Modelled from the spec: vector merge of section 4.1, the function
merge_vectors of GTC/vector.py.  Union of keys; coefficients add where
a key appears in both operands. -/
def merge_vectors : SVec → SVec → SVec
  | [], b => b
  | a, [] => a
  | (k1, x) :: ta, (k2, y) :: tb =>
    if k1 < k2 then (k1, x) :: merge_vectors ta ((k2, y) :: tb)
    else if k2 < k1 then (k2, y) :: merge_vectors ((k1, x) :: ta) tb
    else (k1, x + y) :: merge_vectors ta tb
termination_by a b => a.length + b.length

/-- Modelled from the spec: the chain-rule combinator of section 4.1,
the function merge_weighted_vectors of GTC/vector.py.  On the union of
the key sets the result coefficient is ca times the first coefficient
plus cb times the second. -/
def merge_weighted_vectors : SVec → ℚ → SVec → ℚ → SVec
  | [], _, b, cb => b.map (fun p => (p.1, cb * p.2))
  | a, ca, [], _ => a.map (fun p => (p.1, ca * p.2))
  | (k1, x) :: ta, ca, (k2, y) :: tb, cb =>
    if k1 < k2 then (k1, ca * x) :: merge_weighted_vectors ta ca ((k2, y) :: tb) cb
    else if k2 < k1 then (k2, cb * y) :: merge_weighted_vectors ((k1, x) :: ta) ca tb cb
    else (k1, ca * x + cb * y) :: merge_weighted_vectors ta ca tb cb
termination_by a _ b _ => a.length + b.length

/-- Modelled from the spec: scale of section 4.1, the function
scale_vector of GTC/vector.py.  Multiplies every coefficient by c. -/
def scale_vector (v : SVec) (c : ℚ) : SVec :=
  v.map (fun p => (p.1, c * p.2))

/-- Modelled from the spec: extend of section 4.1, the function
extend_vector of GTC/vector.py.  Returns the first vector aligned over
the union of both key sets, zero-filled on keys it lacks. -/
def extend_vector : SVec → SVec → SVec
  | [], b => b.map (fun p => (p.1, 0))
  | a, [] => a
  | (k1, x) :: ta, (k2, y) :: tb =>
    if k1 < k2 then (k1, x) :: extend_vector ta ((k2, y) :: tb)
    else if k2 < k1 then (k2, 0) :: extend_vector ((k1, x) :: ta) tb
    else (k1, x) :: extend_vector ta tb
termination_by a b => a.length + b.length

/-- Association-list update of the entry under one key, leaving all
other entries unchanged (Python mutation of one dict value). -/
def updA {α β : Type} [DecidableEq α] (m : List (α × β)) (a : α) (g : β → β) :
    List (α × β) :=
  match m with
  | [] => []
  | (k, v) :: t => if k = a then (k, g v) :: updA t a g else (k, v) :: updA t a g

/-- Modelled from the spec: the per-leaf data of section 3 that the
Python Leaf objects of GTC/nodes.py carry.  The declared uncertainty,
degrees of freedom and independence flag are fixed at creation; the
correlation map, the ensemble set and the complex-pair tag are the
mutable registry state.  Following the consistency visible in
_covariance_submatrix of lib_complex.py (the diagonal term is skipped
because it is already in the sum) and in get_correlation (1.0 for the
same leaf), a new leaf starts with the self-entry uid maps to 1. -/
structure LeafData : Type where
  u : ℚ
  df : Dof
  independent : Bool
  correlation : List (Nat × ℚ)
  ensemble : List Nat
  cplx : Option (Nat × Nat)
deriving DecidableEq, Repr

def defaultLeaf : LeafData :=
  { u := 0, df := Dof.inf, independent := true,
    correlation := [], ensemble := [], cplx := none }

/-- Modelled from the spec: the node registry of section 2.  It
allocates elementary and intermediate uids and owns the mutable state
of all leaves. -/
structure Context : Type where
  leaves : List (Nat × LeafData)
  next_elementary : Nat
  next_intermediate : Nat
  inters : List (Nat × ℚ)
deriving DecidableEq, Repr

def emptyContext : Context :=
  { leaves := [], next_elementary := 0, next_intermediate := 0, inters := [] }

/-- Registry lookup of the data of leaf uid i. -/
def Context.getLeaf (ctx : Context) (i : Nat) : LeafData :=
  (lookupL ctx.leaves i).getD defaultLeaf

/-- Registered correlation coefficient between leaf uids i and j, zero
when absent: the Python expression leaf_i.correlation.get(j, 0.0). -/
def corrGet (ctx : Context) (i : Nat) (j : Nat) : ℚ :=
  (lookupL (ctx.getLeaf i).correlation j).getD 0

/-- Write r into the correlation map of leaf a under key b, the Python
statement leaf_a.correlation item-assignment.  The map travels with
the leaf object in Python, so the write is never lost; when uid a has
no registry entry yet an entry carrying just this map is created. -/
def Context.setCorr (ctx : Context) (a : Nat) (b : Nat) (r : ℚ) : Context :=
  if (lookupL ctx.leaves a).isSome then
    { ctx with
        leaves := updA ctx.leaves a
          (fun d => { d with correlation := setL d.correlation b r }) }
  else
    { ctx with leaves := ctx.leaves ++ [(a, { defaultLeaf with correlation := [(b, r)] })] }

/-- Set the complex-pair tag of leaf a, the Python statement
leaf_a.complex = complex_id. -/
def Context.setCplx (ctx : Context) (a : Nat) (cid : Nat × Nat) : Context :=
  { ctx with leaves := updA ctx.leaves a (fun d => { d with cplx := some cid }) }

/-- The node reference held by an uncertain number: a Leaf (with an
optional uid: constants carry a Leaf whose uid is None) or an
intermediate Node. -/
inductive UNode : Type
  | leaf : Option Nat → ℚ → Dof → Bool → UNode
  | inter : Nat → ℚ → UNode
deriving DecidableEq, Repr

/-- The UncertainReal data of lib_real.py: the context reference, the
value estimate, the three sensitivity vectors (independent, dependent,
intermediate) and the optional node. -/
structure UncertainReal : Type where
  context : Option Nat
  x : ℚ
  u_components : SVec
  d_components : SVec
  i_components : SVec
  node : Option UNode
deriving DecidableEq, Repr

/-- Python is_elementary: the node is a Leaf whose uid is not None. -/
def UncertainReal.is_elementary (a : UncertainReal) : Bool :=
  match a.node with
  | some (.leaf (some _) _ _ _) => true
  | _ => false

/-- Python is_intermediate: the node is an intermediate Node. -/
def UncertainReal.is_intermediate (a : UncertainReal) : Bool :=
  match a.node with
  | some (.inter _ _) => true
  | _ => false

/-- Declared degrees of freedom read from the attached leaf node, the
Python expression self node df. -/
def UncertainReal.nodeDf (a : UncertainReal) : Dof :=
  match a.node with
  | some (.leaf _ _ df _) => df
  | _ => Dof.nan

/-- The function _is_uncertain_real_constant of lib_real.py: both the
independent and the dependent vector are empty. -/
def _is_uncertain_real_constant (a : UncertainReal) : Bool :=
  a.u_components.isEmpty && a.d_components.isEmpty

/-- The classmethod UncertainReal.constant of lib_real.py: value x, no
uncertainty, a Leaf node with uid None, u 0 and infinite dof. -/
def UncertainReal.constant (x : ℚ) : UncertainReal :=
  { context := none, x := x,
    u_components := [], d_components := [], i_components := [],
    node := some (UNode.leaf none 0 Dof.inf true) }

/-- The classmethod UncertainReal.elementary of lib_real.py: fails when
df < 1 or u < 0, otherwise allocates the next elementary uid, creates
a leaf and returns the new uncertain number together with the updated
registry.  An independent leaf seeds the independent vector, a
dependent leaf the dependent vector, in both cases with coefficient u. -/
def UncertainReal.elementary (ctx : Context) (x u : ℚ) (df : Dof)
    (independent : Bool) : Except String (UncertainReal × Context) :=
  if df.ltOne then .error "invalid degrees of freedom"
  else if u < 0 then .error "invalid uncertainty"
  else
    let uid := ctx.next_elementary
    let ld : LeafData :=
      { u := u, df := df, independent := independent,
        correlation := [(uid, 1)], ensemble := [], cplx := none }
    let ctx2 : Context :=
      { ctx with leaves := ctx.leaves ++ [(uid, ld)],
                 next_elementary := uid + 1 }
    let nd := UNode.leaf (some uid) u df independent
    if independent then
      .ok ({ context := none, x := x,
             u_components := [(uid, u)], d_components := [], i_components := [],
             node := some nd }, ctx2)
    else
      .ok ({ context := none, x := x,
             u_components := [], d_components := [(uid, u)], i_components := [],
             node := some nd }, ctx2)

/-- The dependent part of std_variance_real of lib_real.py: for each
dependent coefficient its square, plus twice the product with every
later coefficient weighted by the registered correlation. -/
def dVariance (ctx : Context) : SVec → ℚ
  | [] => 0
  | (k, u) :: t =>
    u * u + (t.map (fun q => 2 * u * corrGet ctx k q.1 * q.2)).sum + dVariance ctx t

/-- The function std_variance_real of lib_real.py: sum of squared
independent coefficients plus the correlation-weighted dependent part. -/
def std_variance_real (ctx : Context) (a : UncertainReal) : ℚ :=
  (a.u_components.map (fun p => p.2 * p.2)).sum + dVariance ctx a.d_components

/-- The function std_covariance_real of lib_real.py: independent
influences contribute only where the same leaf appears in both
operands; dependent influences contribute through the registered
correlations of all pairs. -/
def std_covariance_real (ctx : Context) (a b : UncertainReal) : ℚ :=
  (a.u_components.map (fun p => p.2 * vecGet b.u_components p.1)).sum +
  (a.d_components.map (fun p =>
    (b.d_components.map (fun q => p.2 * corrGet ctx p.1 q.1 * q.2)).sum)).sum

/-- The property v of UncertainReal: the square of the node uncertainty
for elementary and intermediate numbers, std_variance_real otherwise. -/
def UncertainReal.vVal (ctx : Context) (a : UncertainReal) : ℚ :=
  match a.node with
  | some (.leaf (some _) u _ _) => u * u
  | some (.inter _ u) => u * u
  | _ => std_variance_real ctx a

/-- The property u of UncertainReal: the node uncertainty for
elementary and intermediate numbers, the square root of
std_variance_real otherwise. -/
noncomputable def UncertainReal.uVal (ctx : Context) (a : UncertainReal) : ℝ :=
  match a.node with
  | some (.leaf (some _) u _ _) => (u : ℝ)
  | some (.inter _ u) => (u : ℝ)
  | _ => Real.sqrt ((std_variance_real ctx a : ℚ) : ℝ)

/-- Decidable equality for Except values, used to evaluate the model at
concrete inputs. -/
instance {ε α : Type} [DecidableEq ε] [DecidableEq α] : DecidableEq (Except ε α) :=
  fun a b =>
    match a, b with
    | .ok x, .ok y => if h : x = y then .isTrue (by rw [h]) else .isFalse (by simp [h])
    | .error e, .error g => if h : e = g then .isTrue (by rw [h]) else .isFalse (by simp [h])
    | .ok _, .error _ => .isFalse (by simp)
    | .error _, .ok _ => .isFalse (by simp)

/-- The classmethod UncertainReal.intermediate of lib_real.py.  An
elementary or already-intermediate number is left untouched; otherwise
the next intermediate uid is allocated, an intermediate Node carrying
the current standard uncertainty is attached, a self-entry with that
uncertainty is merged into the intermediate vector, and the node is
recorded in the registry.  The machine square root used by the u
property of a derived number is abstracted as the parameter sq. -/
def UncertainReal.intermediate (sq : ℚ → ℚ) (ctx : Context) (un : UncertainReal) :
    UncertainReal × Context :=
  if un.is_elementary then (un, ctx)
  else if un.is_intermediate then (un, ctx)
  else
    let uid := ctx.next_intermediate
    let u := sq (std_variance_real ctx un)
    let un2 : UncertainReal :=
      { un with node := some (UNode.inter uid u),
                i_components := merge_vectors un.i_components [(uid, u)] }
    (un2, { ctx with next_intermediate := uid + 1,
                     inters := ctx.inters ++ [(uid, u)] })

/-- The function _add of lib_real.py restricted to two UncertainReal
operands: values add, the three vector pairs are merged, the result
carries the left operand's context reference and no node.  No registry
check is performed. -/
def _add (lhs rhs : UncertainReal) : UncertainReal :=
  { context := lhs.context, x := lhs.x + rhs.x,
    u_components := merge_vectors lhs.u_components rhs.u_components,
    d_components := merge_vectors lhs.d_components rhs.d_components,
    i_components := merge_vectors lhs.i_components rhs.i_components,
    node := none }

/-- The method UncertainReal._magnitude of lib_real.py: a
ZeroDivisionError when the value is exactly zero, otherwise the
absolute value with every vector scaled by the sign of the value
(copysign of 1 and x). -/
def UncertainReal._magnitude (a : UncertainReal) : Except String UncertainReal :=
  if a.x = 0 then
    .error "cannot take the magnitude of an uncertain real number when x is 0"
  else
    let dy_dx : ℚ := if 0 < a.x then 1 else -1
    .ok { context := a.context, x := |a.x|,
          u_components := scale_vector a.u_components dy_dx,
          d_components := scale_vector a.d_components dy_dx,
          i_components := scale_vector a.i_components dy_dx,
          node := none }

/-- The function _mul of lib_real.py restricted to two UncertainReal
operands: the value product, with the chain rule weighting each
operand's vectors by the other operand's value. -/
def _mul (lhs rhs : UncertainReal) : UncertainReal :=
  { context := lhs.context, x := lhs.x * rhs.x,
    u_components := merge_weighted_vectors lhs.u_components rhs.x rhs.u_components lhs.x,
    d_components := merge_weighted_vectors lhs.d_components rhs.x rhs.d_components lhs.x,
    i_components := merge_weighted_vectors lhs.i_components rhs.x rhs.i_components lhs.x,
    node := none }

/-- The function _mul of lib_real.py in the case of a plain real
multiplier: multiplying by 1.0 returns the left operand itself,
otherwise the value and all vectors scale by the multiplier. -/
def _mul_real (lhs : UncertainReal) (rhs : ℚ) : UncertainReal :=
  if rhs = 1 then lhs
  else
    { context := lhs.context, x := lhs.x * rhs,
      u_components := scale_vector lhs.u_components rhs,
      d_components := scale_vector lhs.d_components rhs,
      i_components := scale_vector lhs.i_components rhs,
      node := none }

/-- Result of raising an uncertain real to a plain number power: the
Python function may return a plain float or an UncertainReal. -/
inductive PowResult : Type
  | num : ℚ → PowResult
  | un : UncertainReal → PowResult
deriving DecidableEq, Repr

/-- The function _pow of lib_real.py in the case of a plain real
exponent: exponent 0 returns the plain float 1.0, exponent 1 returns
the left operand itself, any other exponent builds a new uncertain
number with value l to the power r and all vectors scaled by the local
derivative r times l to the power r - 1.  The machine power function
is abstracted as the parameter powQ. -/
def _pow_real (powQ : ℚ → ℚ → ℚ) (lhs : UncertainReal) (rhs : ℚ) : PowResult :=
  if rhs = 0 then .num 1
  else if rhs = 1 then .un lhs
  else
    let l := lhs.x
    let y := powQ l rhs
    let dy_dl := rhs * powQ l (rhs - 1)
    .un { context := lhs.context, x := y,
          u_components := scale_vector lhs.u_components dy_dl,
          d_components := scale_vector lhs.d_components dy_dl,
          i_components := scale_vector lhs.i_components dy_dl,
          node := none }

/-- The function _atan2_re_re of lib_real.py: it asserts that both
operands carry the same context reference before computing, so a
mismatch raises.  The machine atan2 is abstracted as the parameter
fatan2. -/
def _atan2_re_re (fatan2 : ℚ → ℚ → ℚ) (lhs rhs : UncertainReal) :
    Except String UncertainReal :=
  if lhs.context = rhs.context then
    let x := rhs.x
    let y := lhs.x
    let den := x ^ 2 + y ^ 2
    let dz_dx := if den = 0 then 0 else -y / den
    let dz_dy := if den = 0 then 0 else x / den
    .ok { context := lhs.context, x := fatan2 y x,
          u_components := merge_weighted_vectors lhs.u_components dz_dy rhs.u_components dz_dx,
          d_components := merge_weighted_vectors lhs.d_components dz_dy rhs.d_components dz_dx,
          i_components := merge_weighted_vectors lhs.i_components dz_dy rhs.i_components dz_dx,
          node := none }
  else .error "operands of atan2 come from different contexts"

/-- The function set_correlation_real of lib_real.py: both operands
must be elementary and dependent; the same leaf may only be given the
coefficient 1.0; otherwise the coefficient is written symmetrically
into both leaves maps.  Object identity of the two leaves is uid
equality, since the registry allocates unique uids. -/
def set_correlation_real (ctx : Context) (x1 x2 : UncertainReal) (r : ℚ) :
    Except String Context :=
  match x1.node, x2.node with
  | some (.leaf (some uid1) _ _ ind1), some (.leaf (some uid2) _ _ ind2) =>
    if ind1 = false ∧ ind2 = false then
      if uid1 = uid2 ∧ r ≠ 1 then
        .error "self-correlation value should be 1.0"
      else
        .ok ((ctx.setCorr uid1 uid2 r).setCorr uid2 uid1 r)
    else .error "set_correlation called on independent node"
  | _, _ => .error "arguments must be elementary uncertain numbers"

/-- The function get_correlation_real of lib_real.py: a direct map
lookup for a pair of elementary numbers (1.0 for the same leaf);
otherwise the covariance divided by the square root of the product of
the two variances, with 0 returned when the covariance is exactly 0. -/
noncomputable def get_correlation_real (ctx : Context) (x1 x2 : UncertainReal) : ℝ :=
  match x1.node, x2.node with
  | some (.leaf (some uid1) _ _ _), some (.leaf (some uid2) _ _ _) =>
    if uid1 = uid2 then 1 else ((corrGet ctx uid1 uid2 : ℚ) : ℝ)
  | _, _ =>
    let v1 := std_variance_real ctx x1
    let v2 := std_variance_real ctx x2
    let num := std_covariance_real ctx x1 x2
    if num ≠ 0 then ((num : ℚ) : ℝ) / Real.sqrt ((v1 * v2 : ℚ) : ℝ) else 0

/-- Accumulator state of the welch_satterthwaite loop: the running
variance, the lists of component variances and their dofs, the map
from ensembles to their accumulated variance and dof, and the flag
marking that the previous key was the real half of a complex pair. -/
structure WSState : Type where
  var : ℚ
  cpts : List ℚ
  dofs : List Dof
  cmap : List (List Nat × (ℚ × Dof))
  finishComplex : Bool
deriving DecidableEq, Repr

/-- Add dv to the last entry of a list of component variances, the
Python statement cpts_lst item -1 increment. -/
def updateLast : List ℚ → ℚ → List ℚ
  | [], _ => []
  | [a], dv => [a + dv]
  | a :: t, dv => a :: updateLast t dv

/-- Add dv to the variance accumulated for ensemble key k. -/
def cmapAdd (m : List (List Nat × (ℚ × Dof))) (k : List Nat) (dv : ℚ) :
    List (List Nat × (ℚ × Dof)) :=
  updA m k (fun p => (p.1 + dv, p.2))

/-- Inner loop of welch_satterthwaite over the keys after position i:
every registered correlation adds its covariance to the variance; a
pair with two infinite dofs needs no further action; a pair inside the
ensemble of key k accumulates into the ensemble component; the two
halves of the complex pair of key k accumulate into the last
component; any other correlated pair is illegal and the Python code
executes a failing assertion there. -/
def wsInner (ctx : Context) (k : Nat) (u : ℚ) (dfI : Dof) (ensI : List Nat)
    (cplxI : Option (Nat × Nat)) : List (Nat × ℚ) → WSState → Except String WSState
  | [], st => .ok st
  | (kj, uj) :: rest, st =>
    match lookupL (ctx.getLeaf k).correlation kj with
    | none => wsInner ctx k u dfI ensI cplxI rest st
    | some r =>
      let covar := 2 * u * r * uj
      let st2 := { st with var := st.var + covar }
      if dfI = Dof.inf ∧ (ctx.getLeaf kj).df = Dof.inf then
        wsInner ctx k u dfI ensI cplxI rest st2
      else if kj ∈ ensI then
        wsInner ctx k u dfI ensI cplxI rest
          { st2 with cmap := cmapAdd st2.cmap ensI covar }
      else if cplxI = some (k, kj) then
        wsInner ctx k u dfI ensI cplxI rest
          { st2 with cpts := updateLast st2.cpts covar }
      else
        .error "illegal correlation between influences: assertion fails"

/-- Main loop of welch_satterthwaite over the dependent keys.  All but
the last key are processed with a lookahead on the following key (to
recognise a complex pair) and with the inner loop over the remaining
keys; the last key only contributes its variance to the pending
ensemble, complex or single component. -/
def wsLoop (ctx : Context) : List (Nat × ℚ) → WSState → Except String WSState
  | [], st => .ok st
  | [(k, u)], st =>
    let v := u * u
    let dfI := (ctx.getLeaf k).df
    let ensI := (ctx.getLeaf k).ensemble
    let st2 := { st with var := st.var + v }
    .ok (if (lookupL st2.cmap ensI).isSome then
           { st2 with cmap := cmapAdd st2.cmap ensI v }
         else if st2.finishComplex then
           { st2 with cpts := updateLast st2.cpts v }
         else
           { st2 with cpts := st2.cpts ++ [v], dofs := st2.dofs ++ [dfI] })
  | (k, u) :: (k2, u2) :: rest, st =>
    let v := u * u
    let dfI := (ctx.getLeaf k).df
    let cplxI := (ctx.getLeaf k).cplx
    let ensI := (ctx.getLeaf k).ensemble
    let st2 := { st with var := st.var + v }
    let st3 := if ensI ≠ [] ∧ (lookupL st2.cmap ensI).isNone then
                 { st2 with cmap := st2.cmap ++ [(ensI, (0, dfI))] }
               else st2
    let st4 := if (lookupL st3.cmap ensI).isSome then
                 { st3 with cmap := cmapAdd st3.cmap ensI v }
               else if st3.finishComplex then
                 { st3 with cpts := updateLast st3.cpts v }
               else
                 { st3 with cpts := st3.cpts ++ [v], dofs := st3.dofs ++ [dfI] }
    let st5 := { st4 with finishComplex := decide (cplxI = some (k, k2)) }
    match wsInner ctx k u dfI ensI cplxI ((k2, u2) :: rest) st5 with
    | .error e => .error e
    | .ok st6 => wsLoop ctx ((k2, u2) :: rest) st6

/-- The function welch_satterthwaite of lib_real.py.  Elementary
numbers return their declared variance and dof; constants return
variance 0 with infinite dof; when every influence has infinite dof
the standard variance is returned with infinite dof; otherwise the
component lists are accumulated (independent influences first, then
the dependent loop), ensembles are flushed, a zero variance makes the
dof NaN, a NaN dof in the list poisons the denominator into NaN, and
otherwise the dof is the reciprocal of the denominator sum, infinite
when that sum is zero. -/
def welch_satterthwaite (ctx : Context) (a : UncertainReal) :
    Except String (ℚ × Dof) :=
  if a.is_elementary then .ok (a.vVal ctx, a.nodeDf)
  else if _is_uncertain_real_constant a then .ok (0, Dof.inf)
  else
    let u_dof := a.u_components.map (fun p => (ctx.getLeaf p.1).df)
    let d_dof := a.d_components.map (fun p => (ctx.getLeaf p.1).df)
    if (u_dof ++ d_dof).all (fun d => d = Dof.inf) then .ok (a.vVal ctx, Dof.inf)
    else
      let st0 : WSState := { var := 0, cpts := [], dofs := [], cmap := [], finishComplex := false }
      let st1 := a.u_components.foldl (fun st p =>
        { st with var := st.var + p.2 * p.2,
                  cpts := st.cpts ++ [p.2 * p.2],
                  dofs := st.dofs ++ [(ctx.getLeaf p.1).df] }) st0
      match (if a.d_components.isEmpty then .ok st1 else wsLoop ctx a.d_components st1 :
             Except String WSState) with
      | .error e => .error e
      | .ok st2 =>
        let cpts := st2.cpts ++ st2.cmap.map (fun p => p.2.1)
        let dofs := st2.dofs ++ st2.cmap.map (fun p => p.2.2)
        let v := st2.var
        if v = 0 then .ok (v, Dof.nan)
        else if dofs.any (fun d => d = Dof.nan) then .ok (v, Dof.nan)
        else
          let den := (cpts.zip dofs).foldl (fun acc p =>
            match p.2 with
            | Dof.fin q => acc + (p.1 / v) * (p.1 / v) / q
            | _ => acc) 0
          if den = 0 then .ok (v, Dof.inf) else .ok (v, Dof.fin (1 / den))

/-- The property df of UncertainReal: the declared leaf dof for an
elementary number, otherwise the Welch-Satterthwaite result (which can
raise). -/
def UncertainReal.dfVal (ctx : Context) (a : UncertainReal) : Except String Dof :=
  if a.is_elementary then .ok a.nodeDf
  else (welch_satterthwaite ctx a).map (fun p => p.2)

/-- The UncertainComplex data of lib_complex.py: a pair of
UncertainReal components. -/
structure UncertainComplex : Type where
  real : UncertainReal
  imag : UncertainReal
deriving DecidableEq, Repr

/-- The function _is_uncertain_complex_constant of lib_complex.py. -/
def _is_uncertain_complex_constant (z : UncertainComplex) : Bool :=
  _is_uncertain_real_constant z.real && _is_uncertain_real_constant z.imag

/-- Complex addition of two UncertainComplex operands from the method
UncertainComplex add of lib_complex.py: component-wise real addition. -/
def UncertainComplex.add (lhs rhs : UncertainComplex) : UncertainComplex :=
  { real := _add lhs.real rhs.real, imag := _add lhs.imag rhs.imag }

/-- The classmethod UncertainComplex.elementary of lib_complex.py: two
consecutive elementary leaves are allocated for the components, both
leaves are tagged with the complex pair of their uids, and when a
correlation coefficient is given it is written symmetrically between
the two leaves. -/
def UncertainComplex.elementary (ctx : Context) (zre zim u_r u_i : ℚ)
    (r : Option ℚ) (df : Dof) (independent : Bool) :
    Except String (UncertainComplex × Context) :=
  match UncertainReal.elementary ctx zre u_r df independent with
  | .error e => .error e
  | .ok (re1, ctx1) =>
    match UncertainReal.elementary ctx1 zim u_i df independent with
    | .error e => .error e
    | .ok (im1, ctx2) =>
      match re1.node, im1.node with
      | some (.leaf (some uidR) _ _ _), some (.leaf (some uidI) _ _ _) =>
        let cid := (uidR, uidI)
        let ctx3 := (ctx2.setCplx uidR cid).setCplx uidI cid
        let ctx4 := match r with
          | none => ctx3
          | some rv => ((ctx3.setCorr uidR uidI rv).setCorr uidI uidR rv)
        .ok ({ real := re1, imag := im1 }, ctx4)
      | _, _ => .error "elementary components must carry leaf nodes"

/-- The function std_variance_covariance_complex of lib_complex.py:
the two component variances on the diagonal and the real covariance of
the components on both off-diagonal places. -/
def std_variance_covariance_complex (ctx : Context) (z : UncertainComplex) :
    ℚ × ℚ × ℚ × ℚ :=
  let v_r := z.real.vVal ctx
  let v_i := z.imag.vVal ctx
  let cv := std_covariance_real ctx z.real z.imag
  (v_r, cv, cv, v_i)

/-- Body of _covariance_submatrix of lib_complex.py, recursing over the
suffix of the buffer while keeping the full buffer for the asymmetric
cross sum of the off-diagonal term. -/
def covSubGo (ctx : Context) (full : List (Nat × ℚ × ℚ)) :
    List (Nat × ℚ × ℚ) → ℚ × ℚ × ℚ
  | [] => (0, 0, 0)
  | (k, ur, ui) :: t =>
    let rest := covSubGo ctx full t
    (ur * ur + (t.map (fun s => 2 * ur * s.2.1 * corrGet ctx k s.1)).sum + rest.1,
     ur * ui + ((full.filter (fun s => s.1 ≠ k)).map
        (fun s => ur * s.2.2 * corrGet ctx k s.1)).sum + rest.2.1,
     ui * ui + (t.map (fun s => 2 * ui * s.2.2 * corrGet ctx k s.1)).sum + rest.2.2)

/-- The function _covariance_submatrix of lib_complex.py: the three
terms v_rr, v_ri, v_ii of a law-of-propagation calculation over one
buffer of influences, where each buffer entry carries the real and the
imaginary coefficient of one leaf. -/
def _covariance_submatrix (ctx : Context) (buf : List (Nat × ℚ × ℚ)) : ℚ × ℚ × ℚ :=
  covSubGo ctx buf buf

/-- Accumulator of the willink_hall function: the three running sums
of the worker class _EnsembleComponents and the registry of pending
ensemble buffers. -/
structure WHState : Type where
  s11 : ℚ
  s22 : ℚ
  sdiag : ℚ
  reg : List (List Nat × (List (Nat × ℚ × ℚ) × Dof))
deriving DecidableEq, Repr

/-- Division of a variance contribution by a dof value: a finite dof
divides, an infinite dof contributes zero (v over inf is 0.0). -/
def divDof (v : ℚ) : Dof → ℚ
  | Dof.fin q => v / q
  | _ => 0

/-- The method accumulate of _EnsembleComponents in lib_complex.py:
fold the covariance submatrix of one buffer into the running sums,
each term divided by the dof of the buffer. -/
def ecAccumulate (ctx : Context) (buf : List (Nat × ℚ × ℚ)) (nu : Dof)
    (st : WHState) : WHState :=
  let t := _covariance_submatrix ctx buf
  { st with s11 := st.s11 + divDof (t.1 * t.1) nu,
            s22 := st.s22 + divDof (t.2.2 * t.2.2) nu,
            sdiag := st.sdiag + divDof (t.1 * t.2.2 + t.2.1 * t.2.1) nu }

/-- Append a buffer to the pending buffer of ensemble key k. -/
def regAppend (m : List (List Nat × (List (Nat × ℚ × ℚ) × Dof)))
    (k : List Nat) (buf : List (Nat × ℚ × ℚ)) :
    List (List Nat × (List (Nat × ℚ × ℚ) × Dof)) :=
  updA m k (fun p => (p.1 ++ buf, p.2))

/-- Loop of willink_hall over the dependent keys.  A complex-pair key
consumes its imaginary partner as well; a correlation from either half
to a later influence that is neither jointly infinite-dof nor inside
the same ensemble makes the whole dof calculation return NaN (the
value none here).  A plain real key with finite dof that is not the
last key fails the assertion of the Python code.  Finite-dof buffers
accumulate immediately when the key is in no ensemble and are parked
in the ensemble registry otherwise. -/
def whLoop (ctx : Context) (re_d im_d : SVec) :
    List Nat → WHState → Except String (Option WHState)
  | [], st => .ok (some st)
  | k :: rest, st =>
    let ld := ctx.getLeaf k
    let infI := ld.df = Dof.inf
    let ensI := ld.ensemble
    let st2 := if ensI ≠ [] ∧ (lookupL st.reg ensI).isNone then
                 { st with reg := st.reg ++ [(ensI, ([], ld.df))] }
               else st
    match ld.cplx with
    | some _ =>
      match rest with
      | [] => .error "complex influence with no imaginary partner"
      | kIm :: rest2 =>
        if rest2.any (fun kj =>
             ¬(infI ∧ (ctx.getLeaf kj).df = Dof.inf) ∧
             kj ∉ ensI ∧
             ((lookupL ld.correlation kj).isSome ∨
              (lookupL (ctx.getLeaf kIm).correlation kj).isSome)) then
          .ok none
        else
          let buf : List (Nat × ℚ × ℚ) :=
            if infI then [] else
              [(k, vecGet re_d k, vecGet im_d k), (kIm, vecGet re_d kIm, vecGet im_d kIm)]
          if ensI = [] then
            whLoop ctx re_d im_d rest2 (ecAccumulate ctx buf ld.df st2)
          else
            whLoop ctx re_d im_d rest2 { st2 with reg := regAppend st2.reg ensI buf }
    | none =>
      if ¬infI ∧ rest ≠ [] then
        .error "finite-dof real influence before the end: assertion fails"
      else
        let buf : List (Nat × ℚ × ℚ) :=
          if infI then [] else [(k, vecGet re_d k, vecGet im_d k)]
        if ensI = [] then
          whLoop ctx re_d im_d rest (ecAccumulate ctx buf ld.df st2)
        else
          whLoop ctx re_d im_d rest { st2 with reg := regAppend st2.reg ensI buf }

/-- The function willink_hall of lib_complex.py.  Constants return a
zero matrix with infinite dof; elementary numbers return their
variance-covariance matrix with the declared dof; otherwise the real
and imaginary vectors are aligned over the union of their keys, an
all-infinite influence set returns infinite dof, the independent and
dependent influences are folded into the three running sums, an
illegal correlation returns the matrix with NaN dof, an all-zero
matrix returns NaN dof, and otherwise the dof is the normalised ratio,
infinite when the denominator is zero. -/
def willink_hall (ctx : Context) (z : UncertainComplex) :
    Except String ((ℚ × ℚ × ℚ × ℚ) × Dof) :=
  if _is_uncertain_complex_constant z then .ok ((0, 0, 0, 0), Dof.inf)
  else if z.real.is_elementary then
    if z.imag.is_elementary then
      .ok (std_variance_covariance_complex ctx z, z.real.nodeDf)
    else .error "imaginary component not elementary: assertion fails"
  else
    let re_u := extend_vector z.real.u_components z.imag.u_components
    let im_u := extend_vector z.imag.u_components z.real.u_components
    let re_d := extend_vector z.real.d_components z.imag.d_components
    let im_d := extend_vector z.imag.d_components z.real.d_components
    let ids_u := re_u.map Prod.fst
    let ids_d := re_d.map Prod.fst
    if (ids_u.map (fun k => (ctx.getLeaf k).df)).all (fun d => d = Dof.inf) ∧
       (ids_d.map (fun k => (ctx.getLeaf k).df)).all (fun d => d = Dof.inf) then
      .ok (std_variance_covariance_complex ctx z, Dof.inf)
    else
      let st0 : WHState := { s11 := 0, s22 := 0, sdiag := 0, reg := [] }
      let st1 := ids_u.foldl (fun st k =>
        match (ctx.getLeaf k).df with
        | Dof.inf => st
        | nu =>
          let v11 := vecGet re_u k * vecGet re_u k
          let v22 := vecGet im_u k * vecGet im_u k
          let v12 := vecGet re_u k * vecGet im_u k
          { st with s11 := st.s11 + divDof (v11 * v11) nu,
                    s22 := st.s22 + divDof (v22 * v22) nu,
                    sdiag := st.sdiag + divDof (v11 * v22 + v12 * v12) nu }) st0
      match (if ids_d.isEmpty then .ok (some st1) else whLoop ctx re_d im_d ids_d st1 :
             Except String (Option WHState)) with
      | .error e => .error e
      | .ok none => .ok (std_variance_covariance_complex ctx z, Dof.nan)
      | .ok (some st2) =>
        let st3 := st2.reg.foldl (fun st p => ecAccumulate ctx p.2.1 p.2.2 st) st2
        let var := std_variance_covariance_complex ctx z
        let u11 := var.1
        let u12 := var.2.1
        let u22 := var.2.2.2
        if u11 = 0 ∧ u12 = 0 ∧ u22 = 0 then .ok (var, Dof.nan)
        else
          let u2bar := (u11 + u22) * (u11 + u22) / 4
          let bigA := 2 * u11 * u11 / u2bar
          let bigD := (u11 * u22 + u12 * u12) / u2bar
          let bigF := 2 * u22 * u22 / u2bar
          let la := 2 * st3.s11 / u2bar
          let ld2 := st3.sdiag / u2bar
          let lf := 2 * st3.s22 / u2bar
          let num := bigA + bigD + bigF
          let den := la + ld2 + lf
          if den = 0 then .ok (var, Dof.inf) else .ok (var, Dof.fin (num / den))

/-- Correlation coefficient in the sense of the specification: 1 for
the same influence, the registered coefficient otherwise. -/
def rSpecCoef (ctx : Context) (i j : Nat) : ℚ :=
  if i = j then 1 else corrGet ctx i j

/-- Cross-covariance formula stated by the specification for the
off-diagonal entries of the complex variance-covariance matrix: the
sum of u_re_i times u_im_j times r_ij over all pairs of influences of
the two components. -/
def cross_covariance_spec (ctx : Context) (re im : UncertainReal) : ℚ :=
  (((re.u_components ++ re.d_components).map (fun p =>
    (((im.u_components ++ im.d_components).map (fun q =>
      p.2 * q.2 * rSpecCoef ctx p.1 q.1))).sum)).sum)

/-- A dof that satisfies the spec-side bound df >= 1 never triggers the
Python check df < 1. -/
theorem Dof.ltOne_eq_false {df : Dof} (h : df.geOne) : df.ltOne = false := by
  cases df with
  | nan => exact absurd h (by simp [Dof.geOne])
  | inf => rfl
  | fin q =>
    have h1 : (1 : ℚ) ≤ q := h
    simp [Dof.ltOne, not_lt.mpr h1]

/-- Claim C7: constructing an elementary uncertain real fails exactly
when df < 1 or u < 0; for df at least 1 and u at least 0 the
construction succeeds. -/
theorem claim_C7 (ctx : Context) (x u : ℚ) (df : Dof) (independent : Bool) :
    (∃ e, UncertainReal.elementary ctx x u df independent = .error e) ↔
      (df.ltOne = true ∨ u < 0) := by
  unfold UncertainReal.elementary
  by_cases h1 : df.ltOne
  · simp [h1]
  · by_cases h2 : u < 0
    · simp [h1, h2]
    · simp only [h1, Bool.false_eq_true, if_false, h2, if_neg h2, if_false,
        Bool.false_eq_true, or_self, iff_false]
      cases independent <;> simp

/-- Claim C2: an elementary uncertain real built from value v,
uncertainty u at least 0 and dof at least 1 reports exactly x equal to
v, u equal to u, df equal to df and v equal to u squared. -/
theorem claim_C2 (ctx : Context) (x u : ℚ) (df : Dof) (independent : Bool)
    (hu : 0 ≤ u) (hdf : df.geOne) :
    ∃ a ctx2, UncertainReal.elementary ctx x u df independent = .ok (a, ctx2) ∧
      a.x = x ∧ a.uVal ctx2 = (u : ℝ) ∧ a.dfVal ctx2 = .ok df ∧ a.vVal ctx2 = u * u := by
  have h1 : df.ltOne = false := Dof.ltOne_eq_false hdf
  have h2 : ¬ u < 0 := not_lt.mpr hu
  cases independent with
  | true =>
    refine ⟨{ context := none, x := x,
              u_components := [(ctx.next_elementary, u)], d_components := [],
              i_components := [],
              node := some (UNode.leaf (some ctx.next_elementary) u df true) },
            { ctx with
                leaves := ctx.leaves ++ [(ctx.next_elementary,
                  { u := u, df := df, independent := true,
                    correlation := [(ctx.next_elementary, 1)], ensemble := [],
                    cplx := none })],
                next_elementary := ctx.next_elementary + 1 },
            ?_, rfl, ?_, ?_, rfl⟩
    · simp [UncertainReal.elementary, h1, h2]
    · simp [UncertainReal.uVal]
    · simp [UncertainReal.dfVal, UncertainReal.is_elementary, UncertainReal.nodeDf]
  | false =>
    refine ⟨{ context := none, x := x,
              u_components := [], d_components := [(ctx.next_elementary, u)],
              i_components := [],
              node := some (UNode.leaf (some ctx.next_elementary) u df false) },
            { ctx with
                leaves := ctx.leaves ++ [(ctx.next_elementary,
                  { u := u, df := df, independent := false,
                    correlation := [(ctx.next_elementary, 1)], ensemble := [],
                    cplx := none })],
                next_elementary := ctx.next_elementary + 1 },
            ?_, rfl, ?_, ?_, rfl⟩
    · simp [UncertainReal.elementary, h1, h2]
    · simp [UncertainReal.uVal]
    · simp [UncertainReal.dfVal, UncertainReal.is_elementary, UncertainReal.nodeDf]

/-- Witness for claim C2 at the concrete input of an elementary number
with value 2, uncertainty 1 and 3 degrees of freedom. -/
theorem claim_C2_witness :
    ∃ a ctx2, UncertainReal.elementary emptyContext 2 1 (Dof.fin 3) true = .ok (a, ctx2) ∧
      a.x = 2 ∧ a.uVal ctx2 = ((1 : ℚ) : ℝ) ∧ a.dfVal ctx2 = .ok (Dof.fin 3) ∧
      a.vVal ctx2 = 1 * 1 :=
  claim_C2 emptyContext 2 1 (Dof.fin 3) true (by norm_num)
    (by show (1 : ℚ) ≤ 3; norm_num)

/-- Claim C10: raising an uncertain real to the plain exponent 0
returns the plain number 1, raising it to the plain exponent 1 returns
the original object unchanged, and any other plain exponent builds a
new uncertain number with the propagated derivative. -/
theorem claim_C10 (powQ : ℚ → ℚ → ℚ) (lhs : UncertainReal) (rhs : ℚ) :
    _pow_real powQ lhs 0 = PowResult.num 1 ∧
    _pow_real powQ lhs 1 = PowResult.un lhs ∧
    (rhs ≠ 0 → rhs ≠ 1 → _pow_real powQ lhs rhs =
      PowResult.un
        { context := lhs.context, x := powQ lhs.x rhs,
          u_components := scale_vector lhs.u_components (rhs * powQ lhs.x (rhs - 1)),
          d_components := scale_vector lhs.d_components (rhs * powQ lhs.x (rhs - 1)),
          i_components := scale_vector lhs.i_components (rhs * powQ lhs.x (rhs - 1)),
          node := none }) := by
  refine ⟨by norm_num [_pow_real], by norm_num [_pow_real], fun h0 h1 => ?_⟩
  simp [_pow_real, h0, h1]

/-- Concrete base used to witness claim C10. -/
def powExample : UncertainReal :=
  { context := none, x := 3, u_components := [(0, 1)],
    d_components := [], i_components := [], node := none }

/-- Witness for claim C10: squaring the concrete base produces a new
uncertain number with the scaled sensitivity vector. -/
theorem claim_C10_witness :
    _pow_real (fun a _ => a * a) powExample 2 =
      PowResult.un
        { context := none, x := 9, u_components := [(0, 18)],
          d_components := [], i_components := [], node := none } := by
  have h := (claim_C10 (fun a _ => a * a) powExample 2).2.2 (by norm_num) (by norm_num)
  rw [h]
  norm_num [powExample, scale_vector]

/-- Claim C8: the magnitude of an uncertain real fails exactly at
value zero; for a nonzero value it returns the absolute value with all
sensitivity vectors scaled by the sign of the value. -/
theorem claim_C8 (a : UncertainReal) :
    (a.x = 0 → a._magnitude =
      .error "cannot take the magnitude of an uncertain real number when x is 0") ∧
    (a.x ≠ 0 → a._magnitude =
      .ok { context := a.context, x := |a.x|,
            u_components := scale_vector a.u_components (if 0 < a.x then 1 else -1),
            d_components := scale_vector a.d_components (if 0 < a.x then 1 else -1),
            i_components := scale_vector a.i_components (if 0 < a.x then 1 else -1),
            node := none }) := by
  constructor
  · intro h; simp [UncertainReal._magnitude, h]
  · intro h; simp [UncertainReal._magnitude, h]

/-- Concrete negative-valued uncertain real used to witness claim C8. -/
def magExample : UncertainReal :=
  { context := none, x := -2, u_components := [(0, 1)],
    d_components := [], i_components := [], node := none }

/-- Witness for claim C8 at a zero-valued and at a negative-valued
concrete input. -/
theorem claim_C8_witness :
    (UncertainReal.constant 0)._magnitude =
      .error "cannot take the magnitude of an uncertain real number when x is 0" ∧
    magExample._magnitude =
      .ok { context := none, x := 2, u_components := [(0, -1)],
            d_components := [], i_components := [], node := none } := by
  constructor
  · exact (claim_C8 (UncertainReal.constant 0)).1 rfl
  · have h := (claim_C8 magExample).2 (by norm_num [magExample])
    rw [h]
    norm_num [magExample, scale_vector]

/-- Claim C9: registering the same derived uncertain real as
intermediate a second time changes nothing: the uncertain number and
the registry after two registrations equal those after one. -/
theorem claim_C9 (sq : ℚ → ℚ) (ctx : Context) (un : UncertainReal) :
    UncertainReal.intermediate sq (UncertainReal.intermediate sq ctx un).2
      (UncertainReal.intermediate sq ctx un).1 =
    UncertainReal.intermediate sq ctx un := by
  have helem : ∀ (c : Option Nat) (xx : ℚ) (u1 d1 i1 : SVec) (k : Nat) (q : ℚ),
      (UncertainReal.mk c xx u1 d1 i1 (some (UNode.inter k q))).is_elementary = false :=
    fun _ _ _ _ _ _ _ => rfl
  have hint : ∀ (c : Option Nat) (xx : ℚ) (u1 d1 i1 : SVec) (k : Nat) (q : ℚ),
      (UncertainReal.mk c xx u1 d1 i1 (some (UNode.inter k q))).is_intermediate = true :=
    fun _ _ _ _ _ _ _ => rfl
  by_cases he : un.is_elementary
  · simp [UncertainReal.intermediate, he]
  · by_cases hi : un.is_intermediate
    · simp [UncertainReal.intermediate, he, hi]
    · simp only [UncertainReal.intermediate, he, hi, Bool.false_eq_true, if_false,
        helem, hint, if_true]

/-- Concrete pair of uncertain reals carrying different context
references, built directly with the UncertainReal constructor as the
library code does everywhere. -/
def urA : UncertainReal :=
  { context := some 0, x := 1, u_components := [], d_components := [],
    i_components := [], node := none }

def urB : UncertainReal :=
  { context := some 1, x := 2, u_components := [], d_components := [],
    i_components := [], node := none }

/-- Claim C5 counterexample: adding two uncertain reals whose context
references differ raises no error at all; it silently produces the sum
tagged with the left operand's context. -/
theorem claim_C5_counterexample :
    urA.context ≠ urB.context ∧
    _add urA urB = { context := some 0, x := 3, u_components := [],
                     d_components := [], i_components := [], node := none } := by
  constructor
  · simp [urA, urB]
  · norm_num [_add, urA, urB, merge_vectors]

/-- Claim C5 amended: binary operations do not in general check the
registry; addition always succeeds and tags the result with the left
operand's context, and only the real-real atan2 asserts that the two
context references agree, failing exactly on a mismatch. -/
theorem claim_C5_amended (fatan2 : ℚ → ℚ → ℚ) (a b : UncertainReal) :
    (_add a b).context = a.context ∧
    (a.context = b.context → ∃ y, _atan2_re_re fatan2 a b = .ok y) ∧
    (a.context ≠ b.context → ∃ e, _atan2_re_re fatan2 a b = .error e) := by
  refine ⟨rfl, fun h => ?_, fun h => ?_⟩
  · exact ⟨_, by unfold _atan2_re_re; rw [if_pos h]⟩
  · exact ⟨_, by unfold _atan2_re_re; rw [if_neg h]⟩

/-- Witness for the amended claim C5: atan2 succeeds on matching
contexts and fails on the concrete mismatched pair. -/
theorem claim_C5_amended_witness :
    (∃ y, _atan2_re_re (fun _ _ => 0) urA urA = .ok y) ∧
    (∃ e, _atan2_re_re (fun _ _ => 0) urA urB = .error e) :=
  ⟨(claim_C5_amended (fun _ _ => 0) urA urA).2.1 rfl,
   (claim_C5_amended (fun _ _ => 0) urA urB).2.2 (by simp [urA, urB])⟩

/-- Association-list lookup after a write at the same key. -/
theorem lookupL_setL (m : List (Nat × ℚ)) (k : Nat) (v : ℚ) :
    lookupL (setL m k v) k = some v := by
  induction m with
  | nil => simp [setL, lookupL]
  | cons h t ih =>
    obtain ⟨k0, v0⟩ := h
    by_cases hk : k0 = k
    · simp [setL, hk, lookupL]
    · simp [setL, hk, lookupL, ih]

/-- Association-list lookup distributes over an append. -/
theorem lookupL_append {β : Type} (l1 l2 : List (Nat × β)) (i : Nat) :
    lookupL (l1 ++ l2) i =
      match lookupL l1 i with
      | some v => some v
      | none => lookupL l2 i := by
  induction l1 with
  | nil => simp [lookupL]
  | cons h t ih =>
    obtain ⟨k, v⟩ := h
    by_cases hk : k = i
    · simp [lookupL, hk]
    · simp [lookupL, hk, ih]

/-- Association-list lookup after a keyed update: only the entry of
the updated key changes. -/
theorem lookupL_updA {α β : Type} [DecidableEq α] (m : List (α × β)) (a : α)
    (g : β → β) (i : α) :
    lookupL (updA m a g) i = if i = a then (lookupL m i).map g else lookupL m i := by
  induction m with
  | nil => simp [updA, lookupL]
  | cons h t ih =>
    obtain ⟨k, v⟩ := h
    by_cases hka : k = a
    · subst hka
      by_cases hki : k = i
      · subst hki
        simp [updA, lookupL, ih]
      · have hik : ¬ i = k := fun h2 => hki h2.symm
        simp [updA, lookupL, hki, hik, ih]
    · by_cases hki : k = i
      · subst hki
        simp [updA, lookupL, hka, ih]
      · simp [updA, lookupL, hka, hki, ih]

/-- Reading a leaf other than the one whose correlation map was
written leaves the read unchanged. -/
theorem getLeaf_setCorr_ne (ctx : Context) (a b : Nat) (r : ℚ) (i : Nat)
    (h : i ≠ a) : (ctx.setCorr a b r).getLeaf i = ctx.getLeaf i := by
  unfold Context.setCorr Context.getLeaf
  by_cases hp : (lookupL ctx.leaves a).isSome
  · simp only [hp, if_true]
    rw [lookupL_updA, if_neg h]
  · simp only [hp, Bool.false_eq_true, if_false]
    rw [lookupL_append]
    cases hl : lookupL ctx.leaves i with
    | some v => simp
    | none => simp [lookupL, Ne.symm h]

/-- Writing a correlation coefficient makes it readable: the map write
of the Python statement leaf_a.correlation item-assignment is observed
by the subsequent map lookup. -/
theorem corrGet_setCorr_self (ctx : Context) (a b : Nat) (r : ℚ) :
    corrGet (ctx.setCorr a b r) a b = r := by
  unfold corrGet Context.setCorr Context.getLeaf
  by_cases hp : (lookupL ctx.leaves a).isSome
  · simp only [hp, if_true]
    rw [lookupL_updA, if_pos rfl]
    cases hl : lookupL ctx.leaves a with
    | none => rw [hl] at hp; simp at hp
    | some d => simp [lookupL_setL]
  · simp only [hp, Bool.false_eq_true, if_false]
    rw [lookupL_append]
    cases hl : lookupL ctx.leaves a with
    | some v => rw [hl] at hp; simp at hp
    | none => simp [lookupL]

/-- Claim C6: after set_correlation on two distinct elementary
dependent uncertain reals with a coefficient r in the unit interval,
get_correlation returns r in both argument orders. -/
theorem claim_C6 (ctx ctx2 : Context) (x1 x2 : UncertainReal) (r : ℚ)
    (uid1 uid2 : Nat) (u1 u2 : ℚ) (df1 df2 : Dof)
    (h1 : x1.node = some (UNode.leaf (some uid1) u1 df1 false))
    (h2 : x2.node = some (UNode.leaf (some uid2) u2 df2 false))
    (hne : uid1 ≠ uid2)
    (hr : -1 ≤ r ∧ r ≤ 1)
    (hset : set_correlation_real ctx x1 x2 r = .ok ctx2) :
    get_correlation_real ctx2 x1 x2 = (r : ℝ) ∧
    get_correlation_real ctx2 x2 x1 = (r : ℝ) := by
  unfold set_correlation_real at hset
  rw [h1, h2] at hset
  simp only [and_self, if_true, hne, false_and, if_false, ne_eq] at hset
  have hctx2 : ctx2 = (ctx.setCorr uid1 uid2 r).setCorr uid2 uid1 r := by
    cases hset; rfl
  subst hctx2
  constructor
  · unfold get_correlation_real
    rw [h1, h2]
    simp only [hne, if_false]
    have : corrGet ((ctx.setCorr uid1 uid2 r).setCorr uid2 uid1 r) uid1 uid2 = r := by
      have hn : (getLeaf_setCorr_ne (ctx.setCorr uid1 uid2 r) uid2 uid1 r uid1 hne) =
        (getLeaf_setCorr_ne (ctx.setCorr uid1 uid2 r) uid2 uid1 r uid1 hne) := rfl
      unfold corrGet
      rw [getLeaf_setCorr_ne _ _ _ _ _ hne]
      have := corrGet_setCorr_self ctx uid1 uid2 r
      unfold corrGet at this
      exact this
    rw [this]
  · unfold get_correlation_real
    rw [h1, h2]
    simp only [Ne.symm hne, if_false]
    rw [corrGet_setCorr_self]

/-- Concrete elementary dependent pair used to witness claim C6. -/
def exC6x1 : UncertainReal :=
  { context := none, x := 1, u_components := [], d_components := [(0, 1)],
    i_components := [], node := some (UNode.leaf (some 0) 1 Dof.inf false) }

def exC6x2 : UncertainReal :=
  { context := none, x := 2, u_components := [], d_components := [(1, 1)],
    i_components := [], node := some (UNode.leaf (some 1) 1 Dof.inf false) }

/-- Registry holding the two dependent leaves of the claim C6 witness,
as produced by two elementary declarations. -/
def ctxC6pre : Context :=
  { leaves :=
      [(0, { u := 1, df := Dof.inf, independent := false,
             correlation := [(0, 1)], ensemble := [], cplx := none }),
       (1, { u := 1, df := Dof.inf, independent := false,
             correlation := [(1, 1)], ensemble := [], cplx := none })],
    next_elementary := 2, next_intermediate := 0, inters := [] }

def ctxC6 : Context := (ctxC6pre.setCorr 0 1 (1/2)).setCorr 1 0 (1/2)

/-- Witness for claim C6: after registering the coefficient one half
between the two concrete dependent leaves, both query orders return
one half. -/
theorem claim_C6_witness :
    get_correlation_real ctxC6 exC6x1 exC6x2 = (((1 : ℚ)/2 : ℚ) : ℝ) ∧
    get_correlation_real ctxC6 exC6x2 exC6x1 = (((1 : ℚ)/2 : ℚ) : ℝ) := by
  have hset : set_correlation_real ctxC6pre exC6x1 exC6x2 (1/2) = .ok ctxC6 := by
    unfold set_correlation_real exC6x1 exC6x2 ctxC6
    norm_num
  exact claim_C6 ctxC6pre ctxC6 exC6x1 exC6x2 (1/2) 0 1 1 1 Dof.inf Dof.inf
    rfl rfl (by decide) (by norm_num) hset

/-- Merging with an empty vector on the right returns the vector. -/
theorem merge_vectors_nil_right : ∀ a : SVec, merge_vectors a [] = a := by
  intro a
  match a with
  | [] => simp [merge_vectors]
  | (k, x) :: t => simp [merge_vectors]

/-- Sum of any per-entry function over a merge of two vectors with
disjoint key sets splits into the two partial sums. -/
theorem merge_map_sum (f : Nat × ℚ → ℚ) :
    ∀ (a b : SVec), (∀ p ∈ a, ∀ q ∈ b, p.1 ≠ q.1) →
    ((merge_vectors a b).map f).sum = (a.map f).sum + (b.map f).sum
  | [], b, _ => by simp [merge_vectors]
  | (k1, x) :: ta, [], _ => by simp [merge_vectors]
  | (k1, x) :: ta, (k2, y) :: tb, h => by
    by_cases h12 : k1 < k2
    · rw [merge_vectors]
      simp only [if_pos h12, List.map_cons, List.sum_cons]
      rw [merge_map_sum f ta ((k2, y) :: tb)
        (fun p hp q hq => h p (List.mem_cons_of_mem _ hp) q hq)]
      simp [List.sum_cons]; ring
    · by_cases h21 : k2 < k1
      · rw [merge_vectors]
        simp only [if_neg h12, if_pos h21, List.map_cons, List.sum_cons]
        rw [merge_map_sum f ((k1, x) :: ta) tb
          (fun p hp q hq => h p hp q (List.mem_cons_of_mem _ hq))]
        simp [List.sum_cons]; ring
      · exact absurd (Nat.le_antisymm (Nat.not_lt.mp h21) (Nat.not_lt.mp h12))
          (h (k1, x) (List.mem_cons_self _ _) (k2, y) (List.mem_cons_self _ _))
termination_by a b _ => a.length + b.length

/-- Unfolding equation of dVariance on a cons cell. -/
theorem dVariance_cons (ctx : Context) (k : Nat) (u : ℚ) (t : SVec) :
    dVariance ctx ((k, u) :: t) =
      u * u + (t.map (fun q => 2 * u * corrGet ctx k q.1 * q.2)).sum + dVariance ctx t :=
  rfl

/-- The dependent variance of a merge of two vectors with disjoint
keys and no registered correlation across the two key sets is the sum
of the two dependent variances. -/
theorem dVariance_merge (ctx : Context) :
    ∀ (a b : SVec), (∀ p ∈ a, ∀ q ∈ b, p.1 ≠ q.1) →
    (∀ p ∈ a, ∀ q ∈ b, corrGet ctx p.1 q.1 = 0) →
    (∀ p ∈ a, ∀ q ∈ b, corrGet ctx q.1 p.1 = 0) →
    dVariance ctx (merge_vectors a b) = dVariance ctx a + dVariance ctx b
  | [], b, _, _, _ => by simp [merge_vectors, dVariance]
  | (k1, x) :: ta, [], _, _, _ => by simp [merge_vectors, dVariance]
  | (k1, x) :: ta, (k2, y) :: tb, hd, hc1, hc2 => by
    by_cases h12 : k1 < k2
    · rw [merge_vectors]
      simp only [if_pos h12]
      rw [dVariance_cons ctx k1 x (merge_vectors ta ((k2, y) :: tb)),
          dVariance_cons ctx k1 x ta]
      rw [merge_map_sum (fun q => 2 * x * corrGet ctx k1 q.1 * q.2) ta ((k2, y) :: tb)
        (fun p hp q hq => hd p (List.mem_cons_of_mem _ hp) q hq)]
      rw [dVariance_merge ctx ta ((k2, y) :: tb)
        (fun p hp q hq => hd p (List.mem_cons_of_mem _ hp) q hq)
        (fun p hp q hq => hc1 p (List.mem_cons_of_mem _ hp) q hq)
        (fun p hp q hq => hc2 p (List.mem_cons_of_mem _ hp) q hq)]
      have hz : (((k2, y) :: tb).map (fun q => 2 * x * corrGet ctx k1 q.1 * q.2)).sum = 0 := by
        apply List.sum_eq_zero
        intro e he
        obtain ⟨q, hq, rfl⟩ := List.mem_map.mp he
        rw [hc1 (k1, x) (List.mem_cons_self _ _) q hq]
        ring
      rw [hz]
      ring
    · by_cases h21 : k2 < k1
      · rw [merge_vectors]
        simp only [if_neg h12, if_pos h21]
        rw [dVariance_cons ctx k2 y (merge_vectors ((k1, x) :: ta) tb),
            dVariance_cons ctx k2 y tb]
        rw [merge_map_sum (fun q => 2 * y * corrGet ctx k2 q.1 * q.2) ((k1, x) :: ta) tb
          (fun p hp q hq => hd p hp q (List.mem_cons_of_mem _ hq))]
        rw [dVariance_merge ctx ((k1, x) :: ta) tb
          (fun p hp q hq => hd p hp q (List.mem_cons_of_mem _ hq))
          (fun p hp q hq => hc1 p hp q (List.mem_cons_of_mem _ hq))
          (fun p hp q hq => hc2 p hp q (List.mem_cons_of_mem _ hq))]
        have hz : (((k1, x) :: ta).map (fun q => 2 * y * corrGet ctx k2 q.1 * q.2)).sum = 0 := by
          apply List.sum_eq_zero
          intro e he
          obtain ⟨q, hq, rfl⟩ := List.mem_map.mp he
          rw [hc2 q hq (k2, y) (List.mem_cons_self _ _)]
          ring
        rw [hz]
        ring
      · exact absurd (Nat.le_antisymm (Nat.not_lt.mp h21) (Nat.not_lt.mp h12))
          (hd (k1, x) (List.mem_cons_self _ _) (k2, y) (List.mem_cons_self _ _))
termination_by a b _ _ _ => a.length + b.length

/-- Claim C3: for uncertain reals sharing no influence node and with
no registered correlation between their dependent influences, the
standard variance of the sum is the sum of the standard variances. -/
theorem claim_C3 (ctx : Context) (a b : UncertainReal)
    (hu : ∀ p ∈ a.u_components, ∀ q ∈ b.u_components, p.1 ≠ q.1)
    (hd : ∀ p ∈ a.d_components, ∀ q ∈ b.d_components, p.1 ≠ q.1)
    (hc1 : ∀ p ∈ a.d_components, ∀ q ∈ b.d_components, corrGet ctx p.1 q.1 = 0)
    (hc2 : ∀ p ∈ a.d_components, ∀ q ∈ b.d_components, corrGet ctx q.1 p.1 = 0) :
    std_variance_real ctx (_add a b) =
      std_variance_real ctx a + std_variance_real ctx b := by
  show ((merge_vectors a.u_components b.u_components).map (fun p => p.2 * p.2)).sum +
      dVariance ctx (merge_vectors a.d_components b.d_components) = _
  rw [merge_map_sum (fun p => p.2 * p.2) a.u_components b.u_components hu,
      dVariance_merge ctx a.d_components b.d_components hd hc1 hc2]
  unfold std_variance_real
  ring

/-- The square-root branch of the u property applies to every
uncertain number without a node, in particular to every sum. -/
theorem uVal_node_none (ctx : Context) (a : UncertainReal) (h : a.node = none) :
    a.uVal ctx = Real.sqrt ((std_variance_real ctx a : ℚ) : ℝ) := by
  unfold UncertainReal.uVal
  rw [h]

/-- Concrete independent pair of the specification example for claim
C3: elementary values 1 and 2, both with unit uncertainty and infinite
dof. -/
def exC3a : UncertainReal :=
  { context := none, x := 1, u_components := [(0, 1)], d_components := [],
    i_components := [], node := some (UNode.leaf (some 0) 1 Dof.inf true) }

def exC3b : UncertainReal :=
  { context := none, x := 2, u_components := [(1, 1)], d_components := [],
    i_components := [], node := some (UNode.leaf (some 1) 1 Dof.inf true) }

def ctxC3 : Context :=
  { leaves :=
      [(0, { u := 1, df := Dof.inf, independent := true,
             correlation := [(0, 1)], ensemble := [], cplx := none }),
       (1, { u := 1, df := Dof.inf, independent := true,
             correlation := [(1, 1)], ensemble := [], cplx := none })],
    next_elementary := 2, next_intermediate := 0, inters := [] }

/-- Witness for claim C3 at the specification example: the variance of
the sum is 2 and the standard uncertainty of the sum is the square
root of 2. -/
theorem claim_C3_witness :
    std_variance_real ctxC3 (_add exC3a exC3b) = 2 ∧
    (_add exC3a exC3b).uVal ctxC3 = Real.sqrt 2 := by
  have hv : std_variance_real ctxC3 (_add exC3a exC3b) = 2 := by
    rw [claim_C3 ctxC3 exC3a exC3b (by decide) (by decide) (by decide) (by decide)]
    norm_num [std_variance_real, dVariance, exC3a, exC3b]
  refine ⟨hv, ?_⟩
  rw [uVal_node_none ctxC3 (_add exC3a exC3b) rfl, hv]
  norm_num

/-- Three elementary dependent leaves with four degrees of freedom, as
produced by three elementary declarations (claim C1 scenario). -/
def ctxC1pre : Context :=
  { leaves :=
      [(0, { u := 1, df := Dof.fin 4, independent := false,
             correlation := [(0, 1)], ensemble := [], cplx := none }),
       (1, { u := 1, df := Dof.fin 4, independent := false,
             correlation := [(1, 1)], ensemble := [], cplx := none }),
       (2, { u := 1, df := Dof.fin 4, independent := false,
             correlation := [(2, 1)], ensemble := [], cplx := none })],
    next_elementary := 3, next_intermediate := 0, inters := [] }

/-- The claim C1 registry after the direct correlation between the
first and the third leaf is set. -/
def ctxC1 : Context :=
  { leaves :=
      [(0, { u := 1, df := Dof.fin 4, independent := false,
             correlation := [(0, 1), (2, 1)], ensemble := [], cplx := none }),
       (1, { u := 1, df := Dof.fin 4, independent := false,
             correlation := [(1, 1)], ensemble := [], cplx := none }),
       (2, { u := 1, df := Dof.fin 4, independent := false,
             correlation := [(2, 1), (0, 1)], ensemble := [], cplx := none })],
    next_elementary := 3, next_intermediate := 0, inters := [] }

def exC1x1 : UncertainReal :=
  { context := none, x := 1, u_components := [], d_components := [(0, 1)],
    i_components := [], node := some (UNode.leaf (some 0) 1 (Dof.fin 4) false) }

def exC1x2 : UncertainReal :=
  { context := none, x := 2, u_components := [], d_components := [(1, 1)],
    i_components := [], node := some (UNode.leaf (some 1) 1 (Dof.fin 4) false) }

def exC1x3 : UncertainReal :=
  { context := none, x := 4, u_components := [], d_components := [(2, 1)],
    i_components := [], node := some (UNode.leaf (some 2) 1 (Dof.fin 4) false) }

/-- Registry after the first elementary declaration of the claim C1
scenario. -/
def ctxC1a : Context :=
  { leaves := [(0, { u := 1, df := Dof.fin 4, independent := false,
                     correlation := [(0, 1)], ensemble := [], cplx := none })],
    next_elementary := 1, next_intermediate := 0, inters := [] }

/-- Registry after the second elementary declaration of the claim C1
scenario. -/
def ctxC1b : Context :=
  { leaves :=
      [(0, { u := 1, df := Dof.fin 4, independent := false,
             correlation := [(0, 1)], ensemble := [], cplx := none }),
       (1, { u := 1, df := Dof.fin 4, independent := false,
             correlation := [(1, 1)], ensemble := [], cplx := none })],
    next_elementary := 2, next_intermediate := 0, inters := [] }

/-- The derived quantity x4 + x5 of the claim C1 scenario, with
x4 = x1 + x2 and x5 = x2 + x3. -/
def exC1y : UncertainReal := _add (_add exC1x1 exC1x2) (_add exC1x2 exC1x3)

/-- The claim C1 scenario is reachable through the public constructors:
three dependent elementary declarations followed by one direct
set_correlation between the first and third leaf. -/
theorem ctxC1_reachable :
    UncertainReal.elementary emptyContext 1 1 (Dof.fin 4) false = .ok (exC1x1, ctxC1a) ∧
    UncertainReal.elementary ctxC1a 2 1 (Dof.fin 4) false = .ok (exC1x2, ctxC1b) ∧
    UncertainReal.elementary ctxC1b 4 1 (Dof.fin 4) false = .ok (exC1x3, ctxC1pre) ∧
    set_correlation_real ctxC1pre exC1x1 exC1x3 1 = .ok ctxC1 ∧
    exC1y.d_components = [(0, 1), (1, 2), (2, 1)] := by
  refine ⟨?_, ?_, ?_, ?_, ?_⟩
  · norm_num [UncertainReal.elementary, Dof.ltOne, emptyContext, exC1x1, ctxC1a]
  · norm_num [UncertainReal.elementary, Dof.ltOne, exC1x2, ctxC1a, ctxC1b]
  · norm_num [UncertainReal.elementary, Dof.ltOne, exC1x3, ctxC1b, ctxC1pre]
  · norm_num [set_correlation_real, exC1x1, exC1x3, ctxC1pre, ctxC1,
      Context.setCorr, updA, setL, lookupL]
  · norm_num [exC1y, _add, exC1x1, exC1x2, exC1x3, merge_vectors,
      -Prod.mk_one_one, -Prod.mk_zero_zero]

/-- Registry after declaring two elementary complex quantities with
four degrees of freedom (claim C1 complex scenario). -/
def ctxWHpre : Context :=
  { leaves :=
      [(0, { u := 1, df := Dof.fin 4, independent := false,
             correlation := [(0, 1)], ensemble := [], cplx := some (0, 1) }),
       (1, { u := 1, df := Dof.fin 4, independent := false,
             correlation := [(1, 1)], ensemble := [], cplx := some (0, 1) }),
       (2, { u := 1, df := Dof.fin 4, independent := false,
             correlation := [(2, 1)], ensemble := [], cplx := some (2, 3) }),
       (3, { u := 1, df := Dof.fin 4, independent := false,
             correlation := [(3, 1)], ensemble := [], cplx := some (2, 3) })],
    next_elementary := 4, next_intermediate := 0, inters := [] }

/-- The claim C1 complex registry after correlating the real halves of
the two complex pairs. -/
def ctxWH : Context :=
  { leaves :=
      [(0, { u := 1, df := Dof.fin 4, independent := false,
             correlation := [(0, 1), (2, 1)], ensemble := [], cplx := some (0, 1) }),
       (1, { u := 1, df := Dof.fin 4, independent := false,
             correlation := [(1, 1)], ensemble := [], cplx := some (0, 1) }),
       (2, { u := 1, df := Dof.fin 4, independent := false,
             correlation := [(2, 1), (0, 1)], ensemble := [], cplx := some (2, 3) }),
       (3, { u := 1, df := Dof.fin 4, independent := false,
             correlation := [(3, 1)], ensemble := [], cplx := some (2, 3) })],
    next_elementary := 4, next_intermediate := 0, inters := [] }

def exWHz1 : UncertainComplex :=
  { real := { context := none, x := 1, u_components := [], d_components := [(0, 1)],
              i_components := [], node := some (UNode.leaf (some 0) 1 (Dof.fin 4) false) },
    imag := { context := none, x := 2, u_components := [], d_components := [(1, 1)],
              i_components := [], node := some (UNode.leaf (some 1) 1 (Dof.fin 4) false) } }

def exWHz2 : UncertainComplex :=
  { real := { context := none, x := 3, u_components := [], d_components := [(2, 1)],
              i_components := [], node := some (UNode.leaf (some 2) 1 (Dof.fin 4) false) },
    imag := { context := none, x := 4, u_components := [], d_components := [(3, 1)],
              i_components := [], node := some (UNode.leaf (some 3) 1 (Dof.fin 4) false) } }

def exWHw : UncertainComplex := UncertainComplex.add exWHz1 exWHz2

/-- Registry after the first elementary complex declaration of the
claim C1 complex scenario. -/
def ctxWHa : Context :=
  { leaves :=
      [(0, { u := 1, df := Dof.fin 4, independent := false,
             correlation := [(0, 1)], ensemble := [], cplx := some (0, 1) }),
       (1, { u := 1, df := Dof.fin 4, independent := false,
             correlation := [(1, 1)], ensemble := [], cplx := some (0, 1) })],
    next_elementary := 2, next_intermediate := 0, inters := [] }

/-- The claim C1 complex scenario is reachable through the public
constructors: two elementary complex declarations and one direct
correlation between the real halves. -/
theorem ctxWH_reachable :
    UncertainComplex.elementary emptyContext 1 2 1 1 none (Dof.fin 4) false =
      .ok (exWHz1, ctxWHa) ∧
    UncertainComplex.elementary ctxWHa 3 4 1 1 none (Dof.fin 4) false =
      .ok (exWHz2, ctxWHpre) ∧
    set_correlation_real ctxWHpre exWHz1.real exWHz2.real 1 = .ok ctxWH := by
  refine ⟨?_, ?_, ?_⟩
  · norm_num [UncertainComplex.elementary, UncertainReal.elementary, Dof.ltOne,
      emptyContext, exWHz1, ctxWHa, Context.setCplx, updA]
  · norm_num [UncertainComplex.elementary, UncertainReal.elementary, Dof.ltOne,
      exWHz2, ctxWHa, ctxWHpre, Context.setCplx, updA]
  · norm_num [set_correlation_real, exWHz1, exWHz2, ctxWHpre, ctxWH,
      Context.setCorr, updA, setL, lookupL]

/-- Claim C1 (code bug evidence).  At the spec scenario of an
un-groupable correlation between finite-dof leaves, the real
welch_satterthwaite runs into its failing assertion and raises instead
of returning NaN, even though the standard variance of the quantity is
well defined (8 here); the complex willink_hall at the analogous
complex scenario does return its variance-covariance matrix with a NaN
dof and no exception, as the claim states. -/
theorem claim_C1 :
    UncertainReal.dfVal ctxC1 exC1y =
      .error "illegal correlation between influences: assertion fails" ∧
    welch_satterthwaite ctxC1 exC1y =
      .error "illegal correlation between influences: assertion fails" ∧
    exC1y.x = 9 ∧
    std_variance_real ctxC1 exC1y = 8 ∧
    willink_hall ctxWH exWHw = .ok ((4, 0, 0, 2), Dof.nan) := by
  have hws : welch_satterthwaite ctxC1 exC1y =
      .error "illegal correlation between influences: assertion fails" := by
    simp [welch_satterthwaite, exC1y, _add, exC1x1, exC1x2, exC1x3, merge_vectors,
      UncertainReal.is_elementary, _is_uncertain_real_constant, UncertainReal.vVal,
      Context.getLeaf, lookupL, defaultLeaf, ctxC1, wsLoop, wsInner, updateLast,
      cmapAdd, updA, corrGet, -Prod.mk_one_one, -Prod.mk_zero_zero]
  refine ⟨?_, hws, ?_, ?_, ?_⟩
  · rw [UncertainReal.dfVal]
    simp only [hws]
    rfl
  · norm_num [exC1y, _add, exC1x1, exC1x2, exC1x3]
  · norm_num [std_variance_real, dVariance, exC1y, _add, exC1x1, exC1x2, exC1x3,
      merge_vectors, corrGet, Context.getLeaf, lookupL, defaultLeaf, ctxC1,
      -Prod.mk_one_one, -Prod.mk_zero_zero]
  · simp [willink_hall, exWHw, UncertainComplex.add, _add, exWHz1, exWHz2,
      merge_vectors, _is_uncertain_complex_constant, _is_uncertain_real_constant,
      UncertainReal.is_elementary, extend_vector, Context.getLeaf, lookupL,
      defaultLeaf, ctxWH, whLoop, ecAccumulate, _covariance_submatrix, covSubGo,
      divDof, regAppend, updA, vecGet, corrGet, std_variance_covariance_complex,
      UncertainReal.vVal, std_variance_real, std_covariance_real, dVariance,
      -Prod.mk_one_one, -Prod.mk_zero_zero]
    norm_num

/-- Unfolding equation of vecGet on a cons cell. -/
theorem vecGet_cons (k : Nat) (v : ℚ) (t : SVec) (i : Nat) :
    vecGet ((k, v) :: t) i = if k = i then v else vecGet t i := by
  by_cases h : k = i <;> simp [vecGet, lookupL, h]

/-- Sum of coefficients weighted by the spec correlation against a
fixed influence i: when the vector has no duplicate keys and i is
uncorrelated with every other key of the vector, the sum collapses to
the coefficient of i itself. -/
theorem sum_rspec_delta (ctx : Context) (i : Nat) (m : SVec)
    (hnd : (m.map Prod.fst).Nodup)
    (h0 : ∀ q ∈ m, q.1 ≠ i → corrGet ctx i q.1 = 0) :
    (m.map (fun q => q.2 * rSpecCoef ctx i q.1)).sum = vecGet m i := by
  induction m with
  | nil => simp [vecGet, lookupL]
  | cons h t ih =>
    obtain ⟨k, v⟩ := h
    simp only [List.map_cons, List.sum_cons]
    by_cases hik : i = k
    · subst hik
      have hnotin : i ∉ t.map Prod.fst := by
        simp only [List.map_cons, List.nodup_cons] at hnd
        exact hnd.1
      have hz : (t.map (fun q => q.2 * rSpecCoef ctx i q.1)).sum = 0 := by
        apply List.sum_eq_zero
        intro e he
        obtain ⟨q, hq, rfl⟩ := List.mem_map.mp he
        have hqi : q.1 ≠ i := by
          intro hc
          exact hnotin (hc ▸ List.mem_map_of_mem Prod.fst hq)
        rw [show rSpecCoef ctx i q.1 = corrGet ctx i q.1 from
              if_neg (fun hh => hqi hh.symm),
            h0 q (List.mem_cons_of_mem _ hq) hqi]
        ring
      rw [hz, vecGet_cons, if_pos rfl,
          show rSpecCoef ctx i i = 1 from if_pos rfl]
      ring
    · rw [show rSpecCoef ctx i k = corrGet ctx i k from if_neg hik,
          h0 (k, v) (List.mem_cons_self _ _) (fun hh => hik hh.symm),
          vecGet_cons, if_neg (fun hh => hik hh.symm),
          ih (by simpa using (List.nodup_cons.mp (by simpa using hnd)).2)
             (fun q hq hne => h0 q (List.mem_cons_of_mem _ hq) hne)]
      ring

/-- The spec cross-covariance formula coincides with the code function
std_covariance_real whenever the registry state satisfies the leaf
invariants: independent leaves carry no cross correlations, dependent
self-correlations are 1, a leaf is never both independent in one
component and dependent in the other, and the independent keys of the
imaginary component are unique. -/
theorem std_cov_eq_spec (ctx : Context) (re im : UncertainReal)
    (h_uu : ∀ p ∈ re.u_components, ∀ q ∈ im.u_components,
      q.1 ≠ p.1 → corrGet ctx p.1 q.1 = 0)
    (h_ud : ∀ p ∈ re.u_components, ∀ q ∈ im.d_components, corrGet ctx p.1 q.1 = 0)
    (h_du : ∀ p ∈ re.d_components, ∀ q ∈ im.u_components, corrGet ctx p.1 q.1 = 0)
    (hB : (im.u_components.map Prod.fst).Nodup)
    (hC : ∀ p ∈ re.u_components, ∀ q ∈ im.d_components, p.1 ≠ q.1)
    (hC2 : ∀ p ∈ re.d_components, ∀ q ∈ im.u_components, p.1 ≠ q.1)
    (hD : ∀ p ∈ re.d_components, ∀ q ∈ im.d_components,
      p.1 = q.1 → corrGet ctx p.1 q.1 = 1) :
    cross_covariance_spec ctx re im = std_covariance_real ctx re im := by
  unfold cross_covariance_spec std_covariance_real
  rw [List.map_append, List.sum_append]
  congr 1
  · apply congrArg List.sum
    apply List.map_congr_left
    intro p hp
    rw [List.map_append, List.sum_append]
    have h1 : (im.u_components.map (fun q => p.2 * q.2 * rSpecCoef ctx p.1 q.1)).sum
        = p.2 * vecGet im.u_components p.1 := by
      rw [List.map_congr_left
            (fun q _ => by ring :
              ∀ q ∈ im.u_components, p.2 * q.2 * rSpecCoef ctx p.1 q.1 =
                p.2 * (q.2 * rSpecCoef ctx p.1 q.1)),
          List.sum_map_mul_left,
          sum_rspec_delta ctx p.1 im.u_components hB
            (fun q hq hne => h_uu p hp q hq hne)]
    have h2 : (im.d_components.map (fun q => p.2 * q.2 * rSpecCoef ctx p.1 q.1)).sum = 0 := by
      apply List.sum_eq_zero
      intro e he
      obtain ⟨q, hq, rfl⟩ := List.mem_map.mp he
      rw [show rSpecCoef ctx p.1 q.1 = corrGet ctx p.1 q.1 from if_neg (hC p hp q hq),
          h_ud p hp q hq]
      ring
    rw [h1, h2, add_zero]
  · apply congrArg List.sum
    apply List.map_congr_left
    intro p hp
    rw [List.map_append, List.sum_append]
    have h1 : (im.u_components.map (fun q => p.2 * q.2 * rSpecCoef ctx p.1 q.1)).sum = 0 := by
      apply List.sum_eq_zero
      intro e he
      obtain ⟨q, hq, rfl⟩ := List.mem_map.mp he
      rw [show rSpecCoef ctx p.1 q.1 = corrGet ctx p.1 q.1 from if_neg (hC2 p hp q hq),
          h_du p hp q hq]
      ring
    have h2 : im.d_components.map (fun q => p.2 * q.2 * rSpecCoef ctx p.1 q.1) =
        im.d_components.map (fun q => p.2 * corrGet ctx p.1 q.1 * q.2) := by
      apply List.map_congr_left
      intro q hq
      by_cases hpq : p.1 = q.1
      · rw [show rSpecCoef ctx p.1 q.1 = 1 from if_pos hpq, hD p hp q hq hpq]
        ring
      · rw [show rSpecCoef ctx p.1 q.1 = corrGet ctx p.1 q.1 from if_neg hpq]
        ring
    rw [h1, h2, zero_add]

/-- Claim C4: the complex variance-covariance accessor returns the
2 by 2 matrix whose diagonal entries are the component variances
computed as for an uncertain real, and whose two off-diagonal entries
both equal the spec cross-covariance sum over the influences of the
two components. -/
theorem claim_C4 (ctx : Context) (z : UncertainComplex)
    (h_uu : ∀ p ∈ z.real.u_components, ∀ q ∈ z.imag.u_components,
      q.1 ≠ p.1 → corrGet ctx p.1 q.1 = 0)
    (h_ud : ∀ p ∈ z.real.u_components, ∀ q ∈ z.imag.d_components,
      corrGet ctx p.1 q.1 = 0)
    (h_du : ∀ p ∈ z.real.d_components, ∀ q ∈ z.imag.u_components,
      corrGet ctx p.1 q.1 = 0)
    (hB : (z.imag.u_components.map Prod.fst).Nodup)
    (hC : ∀ p ∈ z.real.u_components, ∀ q ∈ z.imag.d_components, p.1 ≠ q.1)
    (hC2 : ∀ p ∈ z.real.d_components, ∀ q ∈ z.imag.u_components, p.1 ≠ q.1)
    (hD : ∀ p ∈ z.real.d_components, ∀ q ∈ z.imag.d_components,
      p.1 = q.1 → corrGet ctx p.1 q.1 = 1) :
    std_variance_covariance_complex ctx z =
      (z.real.vVal ctx, cross_covariance_spec ctx z.real z.imag,
       cross_covariance_spec ctx z.real z.imag, z.imag.vVal ctx) := by
  unfold std_variance_covariance_complex
  rw [std_cov_eq_spec ctx z.real z.imag h_uu h_ud h_du hB hC hC2 hD]

/-- Registry for the claim C4 witness: two correlated dependent leaves
and one independent leaf. -/
def ctxC4 : Context :=
  { leaves :=
      [(0, { u := 2, df := Dof.inf, independent := false,
             correlation := [(0, 1), (1, 1/2)], ensemble := [], cplx := none }),
       (1, { u := 3, df := Dof.inf, independent := false,
             correlation := [(1, 1), (0, 1/2)], ensemble := [], cplx := none }),
       (2, { u := 5, df := Dof.inf, independent := true,
             correlation := [(2, 1)], ensemble := [], cplx := none })],
    next_elementary := 3, next_intermediate := 0, inters := [] }

/-- Derived uncertain complex over shared influences used to witness
claim C4: the independent leaf 2 and the dependent leaf 0 influence
both components. -/
def exC4z : UncertainComplex :=
  { real := { context := none, x := 40, u_components := [(2, 5)],
              d_components := [(0, 2)], i_components := [], node := none },
    imag := { context := none, x := 191/3, u_components := [(2, 7)],
              d_components := [(0, 3), (1, 1)], i_components := [], node := none } }

def exC4x0 : UncertainReal :=
  { context := none, x := 10, u_components := [], d_components := [(0, 2)],
    i_components := [], node := some (UNode.leaf (some 0) 2 Dof.inf false) }

def exC4x1 : UncertainReal :=
  { context := none, x := 20, u_components := [], d_components := [(1, 3)],
    i_components := [], node := some (UNode.leaf (some 1) 3 Dof.inf false) }

def exC4x2 : UncertainReal :=
  { context := none, x := 30, u_components := [(2, 5)], d_components := [],
    i_components := [], node := some (UNode.leaf (some 2) 5 Dof.inf true) }

def ctxC4a : Context :=
  { leaves := [(0, { u := 2, df := Dof.inf, independent := false,
                     correlation := [(0, 1)], ensemble := [], cplx := none })],
    next_elementary := 1, next_intermediate := 0, inters := [] }

def ctxC4b : Context :=
  { leaves :=
      [(0, { u := 2, df := Dof.inf, independent := false,
             correlation := [(0, 1)], ensemble := [], cplx := none }),
       (1, { u := 3, df := Dof.inf, independent := false,
             correlation := [(1, 1)], ensemble := [], cplx := none })],
    next_elementary := 2, next_intermediate := 0, inters := [] }

def ctxC4c : Context :=
  { leaves :=
      [(0, { u := 2, df := Dof.inf, independent := false,
             correlation := [(0, 1)], ensemble := [], cplx := none }),
       (1, { u := 3, df := Dof.inf, independent := false,
             correlation := [(1, 1)], ensemble := [], cplx := none }),
       (2, { u := 5, df := Dof.inf, independent := true,
             correlation := [(2, 1)], ensemble := [], cplx := none })],
    next_elementary := 3, next_intermediate := 0, inters := [] }

/-- The claim C4 witness state is reachable through the public
constructors: three elementary declarations, one correlation, and the
derived components are sums and scalar multiples of the three
elementary numbers. -/
theorem ctxC4_reachable :
    UncertainReal.elementary emptyContext 10 2 Dof.inf false = .ok (exC4x0, ctxC4a) ∧
    UncertainReal.elementary ctxC4a 20 3 Dof.inf false = .ok (exC4x1, ctxC4b) ∧
    UncertainReal.elementary ctxC4b 30 5 Dof.inf true = .ok (exC4x2, ctxC4c) ∧
    set_correlation_real ctxC4c exC4x0 exC4x1 (1/2) = .ok ctxC4 ∧
    _add exC4x0 exC4x2 = exC4z.real ∧
    _add (_add (_mul_real exC4x0 (3/2)) (_mul_real exC4x1 (1/3)))
      (_mul_real exC4x2 (7/5)) = exC4z.imag := by
  refine ⟨?_, ?_, ?_, ?_, ?_, ?_⟩
  · norm_num [UncertainReal.elementary, Dof.ltOne, emptyContext, exC4x0, ctxC4a]
  · norm_num [UncertainReal.elementary, Dof.ltOne, exC4x1, ctxC4a, ctxC4b]
  · norm_num [UncertainReal.elementary, Dof.ltOne, exC4x2, ctxC4b, ctxC4c]
  · norm_num [set_correlation_real, exC4x0, exC4x1, ctxC4c, ctxC4,
      Context.setCorr, updA, setL, lookupL]
  · norm_num [_add, exC4x0, exC4x2, exC4z, merge_vectors,
      -Prod.mk_one_one, -Prod.mk_zero_zero]
  · norm_num [_add, _mul_real, exC4x0, exC4x1, exC4x2, exC4z, merge_vectors,
      merge_vectors_nil_right, scale_vector, -Prod.mk_one_one, -Prod.mk_zero_zero]

/-- Witness for claim C4 at the concrete shared-influence state: the
matrix evaluates to (29, 42, 42, 62) and the spec formula gives the
same off-diagonal 42. -/
theorem claim_C4_witness :
    std_variance_covariance_complex ctxC4 exC4z = (29, 42, 42, 62) ∧
    cross_covariance_spec ctxC4 exC4z.real exC4z.imag = 42 := by
  have hspec : cross_covariance_spec ctxC4 exC4z.real exC4z.imag = 42 := by
    norm_num [cross_covariance_spec, rSpecCoef, corrGet, Context.getLeaf,
      lookupL, defaultLeaf, ctxC4, exC4z, -Prod.mk_one_one, -Prod.mk_zero_zero]
  have h := claim_C4 ctxC4 exC4z
    (by norm_num [exC4z, corrGet, Context.getLeaf, lookupL, defaultLeaf, ctxC4])
    (by norm_num [exC4z, corrGet, Context.getLeaf, lookupL, defaultLeaf, ctxC4])
    (by norm_num [exC4z, corrGet, Context.getLeaf, lookupL, defaultLeaf, ctxC4])
    (by norm_num [exC4z]) (by norm_num [exC4z]) (by norm_num [exC4z])
    (by norm_num [exC4z, corrGet, Context.getLeaf, lookupL, defaultLeaf, ctxC4])
  refine ⟨?_, hspec⟩
  rw [h, hspec]
  norm_num [UncertainReal.vVal, std_variance_real, dVariance, exC4z, corrGet,
    Context.getLeaf, lookupL, defaultLeaf, ctxC4, -Prod.mk_one_one, -Prod.mk_zero_zero]

end GTC
